import Mathlib

/-!
# SCIMInspector — verification of spec claims against the source

Shallow embedding of the parts of `src-tauri/src` that the claims C1–C10
concern: the load-test summary statistics (`load_test.rs`), the load-test
scenario/cleanup request-index and result-record construction, the
validation summary (`validation.rs`), field-mapping rule validation, the
SCIM HTTP client URL/header/auth construction (`scim_client.rs`), and the
command facade's cancel-token handling (`commands.rs`).

Machine integers: `usize`/`u16` are modelled as `ℕ`, `i64`/`i32` as `ℤ`
(no arithmetic in the modelled code comes near overflow), `f64` as `ℚ`
(every claim-relevant computation is exact at the evaluated points, and
the monotonicity facts proved below hold for the `f64` computation as
well since `f64` rounding is monotone).  Fallible calls return `Except`.
Values produced by the outside world (HTTP responses, parsed JSON ids,
random suffixes, clocks, UUIDs) are supplied as explicit oracle
parameters; UUID/timestamp fields, which no claim mentions, are modelled
as `""`.
-/

namespace SCIMInspector

/-- `models.rs::LoadTestResult` (field for field; `request_index : i64 ↦ ℤ`,
`status_code : Option<i32> ↦ Option ℤ`, `duration_ms : i64 ↦ ℤ`). -/
structure LoadTestResult where
  id : String := ""
  test_run_id : String := ""
  request_index : ℤ := 0
  http_method : String := ""
  url : String := ""
  request_body : Option String := none
  status_code : Option ℤ := none
  duration_ms : ℤ := 0
  success : Bool := false
  error_message : Option String := none
  timestamp : String := ""
deriving Repr, DecidableEq

/-- `models.rs::LoadTestSummary`.  The `HashMap<i32, usize>` status-code
distribution is modelled by its counting function. -/
structure LoadTestSummary where
  total_requests : ℕ
  successful : ℕ
  failed : ℕ
  error_rate : ℚ
  total_duration_ms : ℤ
  min_latency_ms : ℤ
  max_latency_ms : ℤ
  avg_latency_ms : ℚ
  p50_latency_ms : ℤ
  p75_latency_ms : ℤ
  p90_latency_ms : ℤ
  p95_latency_ms : ℤ
  p99_latency_ms : ℤ
  requests_per_second : ℚ
  status_code_distribution : ℤ → ℕ

/-- `scim_client.rs::ScimResponse` (`status : u16 ↦ ℕ`). -/
structure ScimResponse where
  status : ℕ
  body : String
  duration_ms : ℤ
deriving Repr, DecidableEq

/-- `f64::round` — rounding half away from zero.  All claim-relevant inputs
are non-negative and far enough from any value where the `f64` computation
could round differently from the exact rational one. -/
def f64Round (x : ℚ) : ℤ :=
  if 0 ≤ x then ⌊x + 1/2⌋ else ⌈x - 1/2⌉

namespace LoadTestEngine

/-- `load_test.rs::LoadTestEngine::percentile`: nearest-rank indexing
`idx = round((p/100) · (len−1))` into the ascending-sorted latency list,
clamped to the last index; `0` on the empty list.  The saturating
`as usize` cast on a (here non-negative) float is `Int.toNat`. -/
def percentile (sorted : List ℤ) (p : ℚ) : ℤ :=
  if sorted.isEmpty then 0
  else
    let idx := (f64Round (p / 100 * ((sorted.length - 1 : ℕ) : ℚ))).toNat
    sorted.getD (min idx (sorted.length - 1)) 0

/-- `load_test.rs::LoadTestEngine::compute_summary`.  `latencies.sort()`
(ascending) is modelled by `List.insertionSort (· ≤ ·)`; for integer keys any
sorting algorithm produces this list. -/
def compute_summary (results : List LoadTestResult) (total_duration_ms : ℤ) :
    LoadTestSummary :=
  let total_requests := results.length
  let successful := (results.filter (·.success)).length
  let failed := total_requests - successful
  let error_rate : ℚ :=
    if 0 < total_requests then (failed : ℚ) / (total_requests : ℚ) * 100 else 0
  let latencies : List ℤ := List.insertionSort (· ≤ ·) (results.map (·.duration_ms))
  let min_latency := (latencies.head?).getD 0
  let max_latency := (latencies.getLast?).getD 0
  let avg_latency : ℚ :=
    if !latencies.isEmpty then (latencies.sum : ℚ) / (latencies.length : ℚ) else 0
  let rps : ℚ :=
    if 0 < total_duration_ms then
      (total_requests : ℚ) / ((total_duration_ms : ℚ) / 1000)
    else 0
  { total_requests
    successful
    failed
    error_rate
    total_duration_ms
    min_latency_ms := min_latency
    max_latency_ms := max_latency
    avg_latency_ms := avg_latency
    p50_latency_ms := percentile latencies 50
    p75_latency_ms := percentile latencies 75
    p90_latency_ms := percentile latencies 90
    p95_latency_ms := percentile latencies 95
    p99_latency_ms := percentile latencies 99
    requests_per_second := rps
    status_code_distribution := fun code =>
      results.countP (fun r => decide (r.status_code = some code)) }

/-- `load_test.rs::LoadTestEngine::build_result`: one `LoadTestResult` per
HTTP attempt; `success = 200 ≤ status < 400` on a received response,
`success = false` with the transport error as `error_message` otherwise.
(The `error_count` atomic increment is a side effect on a progress counter
and does not influence the returned record.) -/
def build_result (run_id : String) (index : ℕ) (method path : String)
    (body : Option String) (result : Except String ScimResponse) : LoadTestResult :=
  match result with
  | .ok resp =>
      let success := decide (200 ≤ resp.status ∧ resp.status < 400)
      { id := ""
        test_run_id := run_id
        request_index := (index : ℤ)
        http_method := method
        url := path
        request_body := body
        status_code := some (resp.status : ℤ)
        duration_ms := resp.duration_ms
        success
        error_message := if !success then some ("Status " ++ toString resp.status) else none
        timestamp := "" }
  | .error e =>
      { id := ""
        test_run_id := run_id
        request_index := (index : ℤ)
        http_method := method
        url := path
        request_body := body
        status_code := none
        duration_ms := 0
        success := false
        error_message := some e
        timestamp := "" }

/-- The record pushed for one cleanup DELETE inside
`load_test.rs::LoadTestEngine::cleanup_users` / `cleanup_resources`
(both build it identically): note the success band is `200 ≤ status < 300`,
narrower than `build_result`'s, and `error_message = del.err()`. -/
def cleanup_delete_result (test_run_id path : String) (idx : ℕ)
    (del : Except String ScimResponse) : LoadTestResult :=
  { id := ""
    test_run_id
    request_index := (idx : ℤ)
    http_method := "DELETE"
    url := path
    request_body := none
    status_code := match del with | .ok r => some (r.status : ℤ) | .error _ => none
    duration_ms := match del with | .ok r => r.duration_ms | .error _ => 0
    success := match del with
      | .ok r => decide (200 ≤ r.status ∧ r.status < 300)
      | .error _ => false
    error_message := match del with | .ok _ => none | .error e => some e
    timestamp := "" }

/-- `load_test.rs::LoadTestEngine::cleanup_users` for an uncancelled run:
one DELETE per collected id, results indexed `base_total + i`; early return
when `ids` is empty.  `deleteResp i` is the server's answer to the `i`-th
DELETE. -/
def cleanup_users (test_run_id : String) (ids : List String)
    (deleteResp : ℕ → Except String ScimResponse) (base_total : ℕ) :
    List LoadTestResult :=
  if ids.isEmpty then []
  else
    (List.range ids.length).map fun i =>
      cleanup_delete_result test_run_id ("/Users/" ++ ids.getD i "") (base_total + i)
        (deleteResp i)

/-- The id captured from one create response in the scenarios
(`if resp.status == 201 { parse body; get "id" }`); `parseId` models
`serde_json::from_str` followed by `.get("id").and_then(as_str)`. -/
def created_id (parseId : String → Option String)
    (resp : Except String ScimResponse) : Option String :=
  match resp with
  | .ok r => if r.status = 201 then parseId r.body else none
  | .error _ => none

/-- `load_test.rs::LoadTestEngine::scenario_create_update` for an uncancelled
run, with server responses supplied by oracles.  Phase 1 issues the N POSTs
(request indices `0..n-1`; `collect_results` sorts each phase by
`request_index`, so a phase's records appear in index order regardless of
task interleaving); `created_ids` collects the ids of 201-responses — only
its length matters to any index, so the completion order of concurrent
tasks is irrelevant here; phase 2 PATCHes each created user at index
`n + i`; cleanup deletes at `base_total = total_http = n * 2`. -/
def scenario_create_update (test_run_id : String) (n : ℕ)
    (userBody patchBody : ℕ → String)
    (createResp updateResp deleteResp : ℕ → Except String ScimResponse)
    (parseId : String → Option String) : List LoadTestResult :=
  let creates := (List.range n).map fun i =>
    build_result test_run_id i "POST" "/Users" (some (userBody i)) (createResp i)
  let ids := (List.range n).filterMap fun i => created_id parseId (createResp i)
  let updates := (List.range ids.length).map fun j =>
    build_result test_run_id (n + j) "PATCH" ("/Users/" ++ ids.getD j "")
      (some (patchBody j)) (updateResp j)
  creates ++ updates ++ cleanup_users test_run_id ids deleteResp (n * 2)

/-- `load_test.rs::LoadTestEngine::scenario_add_remove_members` for an
uncancelled run, with server responses supplied by oracles (`addBody` /
`removeBody` model the PatchOp JSON built from each member's id).  The
phases are strictly sequential in the source: one group POST at index 0
(early return on failure), N user POSTs at indices `1..n`, one
PATCH-add and one PATCH-remove per collected id at `1+n..1+n+2k-1`, then
`let _ = client.request(Method::DELETE, "/Groups/{group_id}")` — the group
cleanup DELETE is issued but its response (`groupDeleteResp`) is discarded
and NO result is recorded for it — and finally `cleanup_users` for the
user ids with `base_total = idx = 1 + n + 2k`. -/
def scenario_add_remove_members (test_run_id : String) (n : ℕ)
    (groupBody : String) (userBody : ℕ → String)
    (addBody removeBody : String → String)
    (groupCreateResp : Except String ScimResponse)
    (userCreateResp addResp removeResp : ℕ → Except String ScimResponse)
    (groupDeleteResp : Except String ScimResponse)
    (userDeleteResp : ℕ → Except String ScimResponse)
    (parseId : String → Option String) : List LoadTestResult :=
  let group_rec := build_result test_run_id 0 "POST" "/Groups" (some groupBody) groupCreateResp
  match created_id parseId groupCreateResp with
  | none => [group_rec]
  | some group_id =>
      let user_ids := (List.range n).filterMap fun i => created_id parseId (userCreateResp i)
      let k := user_ids.length
      let creates := (List.range n).map fun i =>
        build_result test_run_id (1 + i) "POST" "/Users" (some (userBody i)) (userCreateResp i)
      let adds := (List.range k).map fun j =>
        build_result test_run_id (1 + n + j) "PATCH" ("/Groups/" ++ group_id)
          (some (addBody (user_ids.getD j ""))) (addResp j)
      let removes := (List.range k).map fun j =>
        build_result test_run_id (1 + n + k + j) "PATCH" ("/Groups/" ++ group_id)
          (some (removeBody (user_ids.getD j ""))) (removeResp j)
      group_rec :: (creates ++ adds ++ removes
        ++ cleanup_users test_run_id user_ids userDeleteResp (1 + n + 2 * k))

end LoadTestEngine

/-- `models.rs::ValidationResult` (`response_status : Option<i32> ↦ Option ℤ`,
`duration_ms : i64 ↦ ℤ`). -/
structure ValidationResult where
  id : String := ""
  test_run_id : String := ""
  test_name : String := ""
  category : String := ""
  http_method : String := ""
  url : String := ""
  request_body : Option String := none
  response_status : Option ℤ := none
  response_body : Option String := none
  duration_ms : ℤ := 0
  passed : Bool := false
  failure_reason : Option String := none
  executed_at : String := ""
deriving Repr, DecidableEq

/-- `models.rs::CategorySummary`. -/
structure CategorySummary where
  name : String
  total : ℕ
  passed : ℕ
  failed : ℕ
deriving Repr, DecidableEq

/-- `models.rs::ValidationSummary` (`compliance_score : f64 ↦ ℚ`). -/
structure ValidationSummary where
  total : ℕ
  passed : ℕ
  failed : ℕ
  skipped : ℕ
  compliance_score : ℚ
  duration_ms : ℤ
  categories : List CategorySummary
deriving Repr, DecidableEq

/-- `str::starts_with(pat)` for string patterns, as a character-list
comparison (byte and character positions coincide on the ASCII pattern
prefixes the code tests). -/
def starts_with (s pat : String) : Bool :=
  pat.data.isPrefixOf s.data

/-- The skip test used throughout `validation.rs::compute_summary`:
`r.failure_reason.as_ref().is_some_and(|r| r.starts_with("Skipped"))`. -/
def is_skipped (r : ValidationResult) : Bool :=
  match r.failure_reason with
  | some reason => starts_with reason "Skipped"
  | none => false

namespace ValidationEngine

/-- One entry of the per-category breakdown built by
`validation.rs::compute_summary`: `entry.0 += 1` per result of the category,
`entry.1 += 1` if it passed, else `entry.2 += 1` (skipped results count as
failed here). -/
def category_summary (results : List ValidationResult) (name : String) :
    CategorySummary :=
  let rs := results.filter fun r => r.category == name
  { name
    total := rs.length
    passed := (rs.filter (·.passed)).length
    failed := (rs.filter fun r => !r.passed).length }

/-- `validation.rs::ValidationEngine::compute_summary`.  `passed` counts
`r.passed`; `skipped` counts `failure_reason` beginning with `"Skipped"`;
`failed` counts results that are neither; the compliance score is
`100 · passed / (total − skipped)`, or `0` when the denominator is `0`
(`total - skipped` is the `usize` subtraction — `skipped ≤ total` always).
The `HashMap` category breakdown is modelled keyed in first-occurrence
order of the category names. -/
def compute_summary (results : List ValidationResult) : ValidationSummary :=
  let total := results.length
  let passed := (results.filter (·.passed)).length
  let failed := (results.filter fun r => !r.passed && !is_skipped r).length
  let skipped := (results.filter fun r => is_skipped r).length
  let compliance_score : ℚ :=
    if 0 < total - skipped then (passed : ℚ) / ((total - skipped : ℕ) : ℚ) * 100
    else 0
  let duration_ms : ℤ := (results.map (·.duration_ms)).sum
  { total
    passed
    failed
    skipped
    compliance_score
    duration_ms
    categories := ((results.map (·.category)).dedup).map (category_summary results) }

/-- The placeholder result pushed by `validation.rs::test_custom_schema`
when no extension attributes were discovered: `passed = true` together with
a failure reason that starts with `"Skipped"`.
(`test_field_mapping` pushes the same shape when no rules are configured.) -/
def custom_schema_placeholder (test_run_id : String) : ValidationResult :=
  { test_run_id
    test_name := "No custom schema attributes discovered"
    category := "custom_schema"
    http_method := "N/A"
    url := "/Schemas"
    duration_ms := 0
    passed := true
    failure_reason := some "Skipped — no extension schema attributes found in /Schemas" }

end ValidationEngine

/-- `serde_json::Value`.  Numbers representable as `i64`/`u64` (for which
`is_i64() || is_u64()` holds) are `intNum`; all other JSON numbers are
`floatNum`.  Objects are association lists in key order. -/
inductive Json where
  | null
  | bool (b : Bool)
  | intNum (n : ℤ)
  | floatNum (q : ℚ)
  | str (s : String)
  | arr (elems : List Json)
  | obj (fields : List (String × Json))

namespace Json

/-- `Value::get(key)`: object member lookup, `None` on non-objects. -/
def getKey (j : Json) (k : String) : Option Json :=
  match j with
  | .obj fields => (fields.find? fun f => f.1 == k).map (·.2)
  | _ => none

/-- `Value::as_array()`. -/
def asArray (j : Json) : Option (List Json) :=
  match j with
  | .arr elems => some elems
  | _ => none

/-- `Value::is_null()`. -/
def isNull (j : Json) : Bool :=
  match j with
  | .null => true
  | _ => false

/-- `Value::to_string()` — compact JSON serialization.  Number formatting is
approximated (`ℤ`/`ℚ` printing); no claim depends on the rendered text. -/
def render : Json → String
  | .null => "null"
  | .bool b => toString b
  | .intNum n => toString n
  | .floatNum q => toString q
  | .str s => "\"" ++ s ++ "\""
  | .arr elems => "[" ++ String.intercalate "," (renderList elems) ++ "]"
  | .obj fields => "\x7b" ++ String.intercalate "," (renderFields fields) ++ "\x7d"
where
  renderList : List Json → List String
    | [] => []
    | v :: vs => render v :: renderList vs
  renderFields : List (String × Json) → List String
    | [] => []
    | f :: fs => ("\"" ++ f.1 ++ "\":" ++ render f.2) :: renderFields fs

end Json

/-- `models.rs::FieldMappingRule`. -/
structure FieldMappingRule where
  id : String := ""
  server_config_id : String := ""
  scim_attribute : String := ""
  display_name : String := ""
  required : Bool := false
  format : String := "none"
  regex_pattern : Option String := none
  description : Option String := none
  created_at : String := ""
  updated_at : String := ""
deriving Repr, DecidableEq

/-- `validation.rs::PathPart`. -/
inductive PathPart where
  | key (k : String)
  | index (k : String) (i : ℕ)
deriving Repr, DecidableEq

/-- `str::split(c)`: split a character list at every occurrence of `c`
(adjacent separators and ends produce empty segments, as in Rust). -/
def split_on_char (c : Char) : List Char → List (List Char)
  | [] => [[]]
  | x :: xs =>
      match split_on_char c xs with
      | [] => [[]]
      | seg :: segs => if x == c then [] :: seg :: segs else (x :: seg) :: segs

/-- `str::parse::<usize>()` on a character list: a non-empty run of ASCII
digits (a leading `'+'`, which Rust also accepts, and overflow play no role
in any claim). -/
def parse_usize (cs : List Char) : Option ℕ :=
  if !cs.isEmpty && cs.all (·.isDigit) then
    some (cs.foldl (fun n c => n * 10 + (c.toNat - 48)) 0)
  else none

/-- `str::parse::<i64>()` on a character list: optional sign then digits
(overflow plays no role in any claim). -/
def parse_i64 (cs : List Char) : Option ℤ :=
  match cs with
  | '-' :: rest => (parse_usize rest).map fun n => -(n : ℤ)
  | '+' :: rest => (parse_usize rest).map fun n => (n : ℤ)
  | _ => (parse_usize cs).map fun n => (n : ℤ)

namespace ValidationEngine

/-- One segment of `validation.rs::split_path`: an `[n]` suffix selects an
array element; an index that does not parse as `usize` falls back to a
plain key.  The Rust slice `&segment[bracket_pos + 1..segment.len() - 1]`
panics when its start exceeds its end — exactly when the segment's first
`'['` is its final character (`bracket_pos = len − 1`, e.g. the segment
`"emails["`); that slicing panic is modelled as `none`.  (Rust indexes by
byte; attribute paths are ASCII, where byte and character positions
coincide.) -/
def parse_segment (seg : List Char) : Option PathPart :=
  match seg.findIdx? (· == '[') with
  | some bracket_pos =>
      if seg.length - 1 < bracket_pos + 1 then none
      else
        let key : String := ⟨seg.take bracket_pos⟩
        let idx_str := (seg.drop (bracket_pos + 1)).take (seg.length - 1 - (bracket_pos + 1))
        match parse_usize idx_str with
        | some idx => some (.index key idx)
        | none => some (.key ⟨seg⟩)
  | none => some (.key ⟨seg⟩)

/-- `validation.rs::split_path`: split on `'.'` and parse each segment;
`none` propagates a `parse_segment` slicing panic (the whole call crashes
as soon as one segment panics). -/
def split_path (path : String) : Option (List PathPart) :=
  (split_on_char '.' path.data).mapM parse_segment

/-- One step of the `validation.rs::resolve_path` walker (`?` ↦ `Option.bind`). -/
def resolve_step (cur : Option Json) (part : PathPart) : Option Json := do
  let c ← cur
  match part with
  | .key k => c.getKey k
  | .index k i => do
      let v ← c.getKey k
      (← v.asArray).get? i

/-- `validation.rs::resolve_path`.  The outer `Option` is `split_path`'s
slicing panic (`none` = the program crashes); the inner one is the
function's own `Option<Value>` return. -/
def resolve_path (json : Json) (path : String) : Option (Option Json) :=
  (split_path path).map fun parts => parts.foldl resolve_step (some json)

end ValidationEngine

/-- The `regex_lite` calls of `validation.rs::validate_field_rule`, passed in
as oracles: `email_match`/`phone_match`/`datetime_match` are `is_match`
against the three fixed patterns, `compile p` models `Regex::new(p)`
(`none` on an invalid pattern).  No claim settled here depends on the
matchers' behaviour, only on which branch invokes them. -/
structure RegexOracle where
  email_match : String → Bool
  phone_match : String → Bool
  datetime_match : String → Bool
  compile : String → Option (String → Bool)

namespace ValidationEngine

/-- The `if rule.required { match &value { ... } }` block at the top of
`validation.rs::validate_field_rule`: `some` is an early return. -/
def required_check (rule : FieldMappingRule) (value : Option Json) :
    Option (Bool × Option String) :=
  if rule.required then
    match value with
    | none =>
        some (false, some ("Required field '" ++ rule.scim_attribute ++ "' is missing"))
    | some v =>
        if v.isNull then
          some (false, some ("Required field '" ++ rule.scim_attribute ++ "' is null"))
        else
          match v with
          | .str s =>
              if s.data.isEmpty then
                some (false, some ("Required field '" ++ rule.scim_attribute ++ "' is empty"))
              else none
          | _ => none
  else none

/-- The `val_str` conversion in `validation.rs::validate_field_rule`. -/
def val_string (val : Json) : String :=
  match val with
  | .str s => s
  | .bool b => toString b
  | .intNum n => toString n
  | .floatNum q => toString q
  | v => v.render

/-- The `match rule.format.as_str()` dispatch of
`validation.rs::validate_field_rule` (string `match` rendered as an
`if`-chain; the wildcard arm passes).  `String::parse::<i64>` is modelled by
`String.toInt?` (overflow out of scope of the claims). -/
def format_check (rx : RegexOracle) (rule : FieldMappingRule) (val : Json) :
    Bool × Option String :=
  let val_str := val_string val
  if rule.format = "none" then (true, none)
  else if rule.format = "email" then
    if rx.email_match val_str then (true, none)
    else (false, some ("'" ++ rule.scim_attribute ++ "' value '" ++ val_str ++
      "' is not a valid email address"))
  else if rule.format = "uri" then
    if starts_with val_str "http://" || starts_with val_str "https://" ||
        starts_with val_str "urn:" then (true, none)
    else (false, some ("'" ++ rule.scim_attribute ++ "' value '" ++ val_str ++
      "' is not a valid URI"))
  else if rule.format = "phone" then
    if rx.phone_match val_str then (true, none)
    else (false, some ("'" ++ rule.scim_attribute ++ "' value '" ++ val_str ++
      "' is not a valid phone number"))
  else if rule.format = "boolean" then
    match val with
    | .bool _ => (true, none)
    | .str s =>
        if s = "true" || s = "false" then (true, none)
        else (false, some ("'" ++ rule.scim_attribute ++ "' value '" ++ val_str ++
          "' is not a boolean (expected true or false)"))
    | _ => (false, some ("'" ++ rule.scim_attribute ++ "' value '" ++ val_str ++
        "' is not a boolean (expected true or false)"))
  else if rule.format = "integer" then
    match val with
    | .intNum _ => (true, none)
    | .str s =>
        if (parse_i64 s.data).isSome then (true, none)
        else (false, some ("'" ++ rule.scim_attribute ++ "' value '" ++ val_str ++
          "' is not a valid integer"))
    | _ => (false, some ("'" ++ rule.scim_attribute ++ "' value '" ++ val_str ++
        "' is not a valid integer"))
  else if rule.format = "datetime" then
    if rx.datetime_match val_str then (true, none)
    else (false, some ("'" ++ rule.scim_attribute ++ "' value '" ++ val_str ++
      "' is not a valid ISO 8601 date-time"))
  else if rule.format = "regex" then
    match rule.regex_pattern with
    | some pattern =>
        match rx.compile pattern with
        | some matcher =>
            if matcher val_str then (true, none)
            else (false, some ("'" ++ rule.scim_attribute ++ "' value '" ++ val_str ++
              "' does not match pattern '" ++ pattern ++ "'"))
        | none => (false, some ("Invalid regex pattern '" ++ pattern ++ "'"))
    | none => (false, some "Regex format selected but no pattern provided")
  else (true, none)

/-- `validation.rs::ValidationEngine::validate_field_rule`: resolve the
attribute path (`none` propagates the `split_path` slicing panic — the
probe crashes and no pass/fail pair exists), run the required check, pass
when the value is absent or null, otherwise apply the format predicate. -/
def validate_field_rule (rx : RegexOracle) (user : Json) (rule : FieldMappingRule) :
    Option (Bool × Option String) :=
  match resolve_path user rule.scim_attribute with
  | none => none
  | some value =>
      some (match required_check rule value with
        | some early => early
        | none =>
            match value with
            | some v => if v.isNull then (true, none) else format_check rx rule v
            | none => (true, none))

end ValidationEngine

/-- `models.rs::ServerConfig`. -/
structure ServerConfig where
  id : String := ""
  name : String := ""
  base_url : String := ""
  auth_type : String := ""
  auth_token : Option String := none
  auth_username : Option String := none
  auth_password : Option String := none
  api_key_header : Option String := none
  api_key_value : Option String := none
  created_at : String := ""
  updated_at : String := ""
deriving Repr, DecidableEq

/-- `str::trim_end_matches('/')`: remove every trailing `'/'`. -/
def trim_end_slashes (s : String) : String :=
  ⟨(s.data.reverse.dropWhile (· == '/')).reverse⟩

/-- `str::trim_start_matches('/')`: remove every leading `'/'`. -/
def trim_start_slashes (s : String) : String :=
  ⟨s.data.dropWhile (· == '/')⟩

/-- `scim_client.rs::ScimClient` — the fields the claims touch (the
`reqwest::Client` itself, its timeout and its pool size carry no claim). -/
structure ScimClient where
  base_url : String
  auth_type : String
  auth_token : Option String
  auth_username : Option String
  auth_password : Option String
  api_key_header : Option String
  api_key_value : Option String
deriving Repr, DecidableEq

/-- The outgoing request assembled by `scim_client.rs::request` /
`request_full`: method, resolved URL, header list in insertion order, body. -/
structure ScimRequest where
  method : String
  url : String
  headers : List (String × String)
  body : Option String
deriving Repr, DecidableEq

namespace ScimClient

/-- `scim_client.rs::ScimClient::new` (and `new_with_concurrency`): the base
URL is stored with every trailing slash stripped; auth material is copied. -/
def new (config : ServerConfig) : ScimClient :=
  { base_url := trim_end_slashes config.base_url
    auth_type := config.auth_type
    auth_token := config.auth_token
    auth_username := config.auth_username
    auth_password := config.auth_password
    api_key_header := config.api_key_header
    api_key_value := config.api_key_value }

/-- `scim_client.rs::ScimClient::build_url`:
`format!("{}/{}", base_url, path.trim_start_matches('/'))`. -/
def build_url (c : ScimClient) (path : String) : String :=
  c.base_url ++ "/" ++ trim_start_slashes path

/-- `scim_client.rs::ScimClient::apply_auth` (string `match` as an
`if`-chain).  `b64` models `base64::STANDARD.encode`; which header, if any,
is appended never depends on its output. -/
def apply_auth (c : ScimClient) (b64 : String → String)
    (headers : List (String × String)) : List (String × String) :=
  if c.auth_type = "bearer" then
    match c.auth_token with
    | some token => headers ++ [("Authorization", "Bearer " ++ token)]
    | none => headers
  else if c.auth_type = "basic" then
    match c.auth_username, c.auth_password with
    | some user, some pass =>
        headers ++ [("Authorization", "Basic " ++ b64 (user ++ ":" ++ pass))]
    | _, _ => headers
  else if c.auth_type = "apikey" then
    match c.api_key_header, c.api_key_value with
    | some hdr, some val => headers ++ [(hdr, val)]
    | _, _ => headers
  else headers

/-- The request-construction part of `scim_client.rs::ScimClient::request`
(identical in `request_full`): build the URL, set `Content-Type` and
`Accept` to `application/scim+json`, apply authentication, attach the body.
Construction is total — sending may fail, building never does. -/
def build_request (c : ScimClient) (b64 : String → String)
    (method path : String) (body : Option String) : ScimRequest :=
  { method
    url := c.build_url path
    headers := c.apply_auth b64
      [("Content-Type", "application/scim+json"),
       ("Accept", "application/scim+json")]
    body }

end ScimClient

/-- The externally observable steps of the command-facade run functions in
`commands.rs`, in program order.  Only the steps the cancel-token claims
speak about are distinguished. -/
inductive FacadeStep where
  | register_cancel_token
  | save_test_run (status : String)
  | invoke_engine
  | save_results
  | remove_cancel_token
deriving Repr, DecidableEq

/-- Step trace of `commands.rs::run_validation` (after config lookup):
write the running `TestRun`, invoke the validation engine, save results,
write the completed `TestRun`.  No cancel token is ever created,
registered, or removed. -/
def run_validation_steps : List FacadeStep :=
  [.save_test_run "running", .invoke_engine, .save_results,
   .save_test_run "completed"]

/-- Step trace of `commands.rs::start_load_test` (after config lookup):
register the cancel flag under the run id, write the running `TestRun`,
invoke the load-test engine, save results, write the terminal `TestRun`
(`cancelled` when the flag was tripped), remove the cancel flag. -/
def start_load_test_steps (cancelled : Bool) : List FacadeStep :=
  [.register_cancel_token, .save_test_run "running", .invoke_engine,
   .save_results, .save_test_run (if cancelled then "cancelled" else "completed"),
   .remove_cancel_token]

/-- `commands.rs::stop_load_test` over the cancel-flag map (modelled as an
association list `run id ↦ flag value`): when the id is present the flag is
set to `true`, otherwise an error is reported and the map is unchanged. -/
def stop_load_test (flags : List (String × Bool)) (test_run_id : String) :
    Except String Unit × List (String × Bool) :=
  if (flags.find? fun f => f.1 == test_run_id).isSome then
    (.ok (), flags.map fun f => if f.1 == test_run_id then (f.1, true) else f)
  else
    (.error "Test run not found or already completed", flags)

end SCIMInspector

/-! ## Proof development: percentile evaluation on the spec's worked example -/

namespace SCIMInspector
namespace LoadTestEngine

/-- Ten results carrying the latency multiset `{1,…,10}` ms (in shuffled
arrival order, so the summary's sort is exercised). -/
def latency_fixture : List LoadTestResult :=
  [7, 1, 10, 3, 9, 5, 2, 8, 6, 4].map fun d => { duration_ms := d, success := true }

theorem latency_fixture_sorted :
    List.insertionSort (· ≤ ·) (latency_fixture.map (·.duration_ms)) =
      [1, 2, 3, 4, 5, 6, 7, 8, 9, 10] := by decide

theorem percentile_ten_50 : percentile [1, 2, 3, 4, 5, 6, 7, 8, 9, 10] 50 = 6 := by
  have h : f64Round ((9:ℚ)/2) = 5 := by
    rw [f64Round, if_pos (by norm_num), Int.floor_eq_iff]; norm_num
  norm_num [percentile, h]
  decide

theorem percentile_ten_75 : percentile [1, 2, 3, 4, 5, 6, 7, 8, 9, 10] 75 = 8 := by
  have h : f64Round ((27:ℚ)/4) = 7 := by
    rw [f64Round, if_pos (by norm_num), Int.floor_eq_iff]; norm_num
  norm_num [percentile, h]
  decide

theorem percentile_ten_90 : percentile [1, 2, 3, 4, 5, 6, 7, 8, 9, 10] 90 = 9 := by
  have h : f64Round ((81:ℚ)/10) = 8 := by
    rw [f64Round, if_pos (by norm_num), Int.floor_eq_iff]; norm_num
  norm_num [percentile, h]
  decide

theorem percentile_ten_95 : percentile [1, 2, 3, 4, 5, 6, 7, 8, 9, 10] 95 = 10 := by
  have h : f64Round ((171:ℚ)/20) = 9 := by
    rw [f64Round, if_pos (by norm_num), Int.floor_eq_iff]; norm_num
  norm_num [percentile, h]
  decide

theorem percentile_ten_99 : percentile [1, 2, 3, 4, 5, 6, 7, 8, 9, 10] 99 = 10 := by
  have h : f64Round ((891:ℚ)/100) = 9 := by
    rw [f64Round, if_pos (by norm_num), Int.floor_eq_iff]; norm_num
  norm_num [percentile, h]
  decide

/-- Claim C3, counterexample: on the latency list `[1,…,10]` ms the claimed
value `p90 = 10` is wrong — `idx = round(0.9 · 9) = round(8.1) = 8` selects
the ninth element, so `compute_summary` reports `p90 = 9`. -/
theorem C3_counterexample :
    (compute_summary latency_fixture 100).p90_latency_ms = 9 ∧
    (compute_summary latency_fixture 100).p90_latency_ms ≠ 10 := by
  have h : (compute_summary latency_fixture 100).p90_latency_ms = 9 := by
    norm_num [compute_summary, latency_fixture_sorted, percentile_ten_90]
  exact ⟨h, by rw [h]; decide⟩

/-- Claim C3, as amended: the load-test summary sorts latencies ascending and
indexes percentiles with `idx = round((p/100)·(len−1))`; for the input
latency list `[1,…,10]` ms it returns `p50 = 6`, `p75 = 8`, `p90 = 9`
(not 10), `p95 = 10`, `p99 = 10`, `min = 1`, `max = 10`, `avg = 5.5`. -/
theorem C3_percentile_summary :
    (compute_summary latency_fixture 100).p50_latency_ms = 6 ∧
    (compute_summary latency_fixture 100).p75_latency_ms = 8 ∧
    (compute_summary latency_fixture 100).p90_latency_ms = 9 ∧
    (compute_summary latency_fixture 100).p95_latency_ms = 10 ∧
    (compute_summary latency_fixture 100).p99_latency_ms = 10 ∧
    (compute_summary latency_fixture 100).min_latency_ms = 1 ∧
    (compute_summary latency_fixture 100).max_latency_ms = 10 ∧
    (compute_summary latency_fixture 100).avg_latency_ms = 11/2 := by
  refine ⟨?_, ?_, ?_, ?_, ?_, ?_, ?_, ?_⟩ <;>
    norm_num [compute_summary, latency_fixture_sorted, percentile_ten_50,
      percentile_ten_75, percentile_ten_90, percentile_ten_95, percentile_ten_99]

end LoadTestEngine
end SCIMInspector

/-! ## Proof development: validation summary counters and compliance score -/

namespace SCIMInspector
namespace ValidationEngine

/-- Every result is passed, failed, or skipped — except that a result which
is simultaneously `passed` and `"Skipped"`-tagged is counted twice. -/
theorem length_filter_partition (l : List ValidationResult) :
    l.length + (l.filter fun r => r.passed && is_skipped r).length
      = (l.filter (·.passed)).length
        + (l.filter fun r => !r.passed && !is_skipped r).length
        + (l.filter fun r => is_skipped r).length := by
  induction l with
  | nil => simp
  | cons a t ih =>
      cases hp : a.passed <;> cases hs : is_skipped a <;>
        simp [List.filter_cons, hp, hs] <;> omega

theorem no_overlap_filter_nil (l : List ValidationResult)
    (h : ∀ r ∈ l, r.passed = true → is_skipped r = false) :
    (l.filter fun r => r.passed && is_skipped r) = [] := by
  rw [List.filter_eq_nil_iff]
  intro a ha
  simp only [Bool.and_eq_true, not_and]
  intro hp
  simp [h a ha hp]

/-- Claim C2, as amended: `total = passed + failed + skipped` holds for every
result list in which no result is both `passed` and `"Skipped"`-tagged (all
results except the empty-category placeholders); a placeholder with
`passed = true` and a `"Skipped"` reason is counted in both `passed` and
`skipped`, breaking the identity. -/
theorem C2_total_eq_passed_failed_skipped (results : List ValidationResult)
    (h : ∀ r ∈ results, r.passed = true → is_skipped r = false) :
    (compute_summary results).total
      = (compute_summary results).passed + (compute_summary results).failed
        + (compute_summary results).skipped := by
  have hover := no_overlap_filter_nil results h
  have hpart := length_filter_partition results
  rw [hover] at hpart
  simp only [List.length_nil] at hpart
  simp only [compute_summary]
  omega

/-- A run containing only the `custom_schema` empty placeholder. -/
def skipped_placeholder_run : List ValidationResult :=
  [custom_schema_placeholder "run-1"]

/-- Claim C2, counterexample: for the single placeholder result that
`test_custom_schema` emits when no extension attributes are discovered
(`passed = true`, reason `"Skipped — …"`), `compute_summary` returns
`total = 1` but `passed + failed + skipped = 1 + 0 + 1 = 2`. -/
theorem C2_counterexample :
    ¬ ((compute_summary skipped_placeholder_run).total
        = (compute_summary skipped_placeholder_run).passed
          + (compute_summary skipped_placeholder_run).failed
          + (compute_summary skipped_placeholder_run).skipped) := by decide

/-- A run with no passed-and-skipped overlap: a pass, a dependency skip, a
failure. -/
def disjoint_run : List ValidationResult :=
  [{ passed := true },
   { passed := false, failure_reason := some "Skipped: user creation failed" },
   { passed := false, failure_reason := some "Expected 201, got 409" }]

theorem C2_witness :
    (compute_summary disjoint_run).total
      = (compute_summary disjoint_run).passed + (compute_summary disjoint_run).failed
        + (compute_summary disjoint_run).skipped :=
  C2_total_eq_passed_failed_skipped disjoint_run (by decide)

end ValidationEngine
end SCIMInspector

namespace SCIMInspector
namespace ValidationEngine

/-- Claim C1, as amended: the compliance score is always non-negative, and
is at most 100 for every result list in which no result is simultaneously
`passed` and `"Skipped"`-tagged (the empty-category placeholders are the
only records the engine produces that violate this). -/
theorem C1_compliance_score_bounds (results : List ValidationResult) :
    0 ≤ (compute_summary results).compliance_score ∧
      ((∀ r ∈ results, r.passed = true → is_skipped r = false) →
        (compute_summary results).compliance_score ≤ 100) := by
  constructor
  · simp only [compute_summary]
    split
    · positivity
    · norm_num
  · intro h
    have hover := no_overlap_filter_nil results h
    have hpart := length_filter_partition results
    rw [hover] at hpart
    simp only [List.length_nil] at hpart
    simp only [compute_summary]
    split
    case isTrue hd =>
      set p := (results.filter (·.passed)).length with hp
      set s := (results.filter fun r => is_skipped r).length with hs
      have hple : p ≤ results.length - s := by omega
      have hdpos : (0:ℚ) < ((results.length - s : ℕ) : ℚ) := by exact_mod_cast hd
      have hcast : (p:ℚ) ≤ ((results.length - s : ℕ) : ℚ) := by exact_mod_cast hple
      have h1 : (p:ℚ) / ((results.length - s : ℕ) : ℚ) ≤ 1 :=
        (div_le_one hdpos).mpr hcast
      calc (p:ℚ) / ((results.length - s : ℕ) : ℚ) * 100 ≤ 1 * 100 :=
            mul_le_mul_of_nonneg_right h1 (by norm_num)
        _ = 100 := by norm_num
    case isFalse => norm_num

/-- A run mixing the placeholder with an ordinary pass. -/
def inflated_run : List ValidationResult :=
  [custom_schema_placeholder "run-2", { passed := true }]

/-- Claim C1, counterexample: a run consisting of the `custom_schema` empty
placeholder (`passed = true`, `"Skipped"` reason) plus one ordinary passing
probe yields `passed = 2`, `total − skipped = 1`, hence a compliance score
of 200 — outside `[0, 100]`. -/
theorem C1_counterexample :
    ¬ ((compute_summary inflated_run).compliance_score ≤ 100) := by
  have h1 : (inflated_run.filter (·.passed)).length = 2 := by decide
  have h2 : (inflated_run.filter fun r => is_skipped r).length = 1 := by decide
  have h3 : inflated_run.length = 2 := by decide
  simp only [compute_summary, h1, h2, h3]
  norm_num

theorem C1_witness :
    0 ≤ (compute_summary disjoint_run).compliance_score ∧
      (compute_summary disjoint_run).compliance_score ≤ 100 :=
  ⟨(C1_compliance_score_bounds disjoint_run).1,
   (C1_compliance_score_bounds disjoint_run).2 (by decide)⟩

end ValidationEngine
end SCIMInspector

/-! ## Proof development: load-test request-index density -/

namespace SCIMInspector
namespace LoadTestEngine

theorem build_result_request_index (run_id : String) (index : ℕ) (method path : String)
    (body : Option String) (result : Except String ScimResponse) :
    (build_result run_id index method path body result).request_index = (index : ℤ) := by
  cases result <;> rfl

theorem length_filterMap_of_isSome {α β : Type} (f : α → Option β) (l : List α)
    (h : ∀ x ∈ l, (f x).isSome) : (l.filterMap f).length = l.length := by
  induction l with
  | nil => rfl
  | cons a t ih =>
      have ha := h a (List.mem_cons_self a t)
      rcases Option.isSome_iff_exists.mp ha with ⟨b, hb⟩
      rw [List.filterMap_cons, hb, List.length_cons,
        ih fun x hx => h x (List.mem_cons_of_mem a hx), List.length_cons]

/-- Claim C4, as amended: in an uncancelled `create_update` run in which
every create returns 201 with a parseable id, the request indices are
exactly `0, 1, …, 3n − 1` in order (creates `0..n−1`, updates `n..2n−1`,
cleanup `2n..3n−1`) — dense and duplicate-free.  When only some creates
succeed the cleanup block still starts at `2n`, leaving a gap (see the
counterexample). -/
theorem C4_create_update_indices_dense (rid : String) (n : ℕ)
    (ub pb : ℕ → String) (cr ur dr : ℕ → Except String ScimResponse)
    (pid : String → Option String)
    (h : ∀ i < n, (created_id pid (cr i)).isSome) :
    (scenario_create_update rid n ub pb cr ur dr pid).map (·.request_index)
      = (List.range (3 * n)).map (fun i : ℕ => (i : ℤ)) := by
  have hids : ((List.range n).filterMap fun i => created_id pid (cr i)).length = n := by
    rw [length_filterMap_of_isSome _ _ fun i hi => h i (List.mem_range.mp hi),
      List.length_range]
  have hA : ∀ i ∈ List.range n,
      ((fun r => r.request_index) ∘
        fun i => build_result rid i "POST" "/Users" (some (ub i)) (cr i)) i
        = ((fun i : ℕ => (i : ℤ))) i := by
    intro i _
    simp [Function.comp, build_result_request_index]
  have hC : (cleanup_users rid ((List.range n).filterMap fun i => created_id pid (cr i))
      dr (n * 2)).map (·.request_index)
        = (List.range n).map fun i : ℕ => ((n + n + i : ℕ) : ℤ) := by
    rw [cleanup_users]
    rcases Nat.eq_zero_or_pos n with hn | hn
    · have hempty : ((List.range n).filterMap fun i => created_id pid (cr i)) = [] := by
        rw [← List.length_eq_zero, hids, hn]
      rw [hempty]
      subst hn
      simp
    · have hne : (((List.range n).filterMap fun i => created_id pid (cr i)).isEmpty) = false := by
        rw [List.isEmpty_eq_false_iff_exists_mem]
        have h0 : 0 < ((List.range n).filterMap fun i => created_id pid (cr i)).length := by
          rw [hids]; omega
        exact List.exists_mem_of_length_pos h0
      rw [if_neg (by simp [hne]), hids, List.map_map]
      refine List.map_congr_left fun i _ => ?_
      simp only [Function.comp, cleanup_delete_result]
      congr 1
      omega
  have hsplit : (List.range (3 * n)).map (fun i : ℕ => (i : ℤ))
      = (List.range n).map (fun i : ℕ => (i : ℤ))
        ++ (List.range n).map (fun i : ℕ => ((n + i : ℕ) : ℤ))
        ++ (List.range n).map (fun i : ℕ => ((n + n + i : ℕ) : ℤ)) := by
    rw [show (3 : ℕ) * n = (n + n) + n by ring, List.range_add, List.range_add]
    simp only [List.map_append, List.map_map]
    congr 1
  simp only [scenario_create_update, List.map_append, List.map_map, hids]
  rw [List.map_congr_left hA, hC, hsplit]
  congr 1
  congr 1
  refine List.map_congr_left fun j _ => ?_
  simp [Function.comp, build_result_request_index]

end LoadTestEngine
end SCIMInspector

namespace SCIMInspector
namespace LoadTestEngine

/-- A `create_update` run with N = 2 where the second create fails
(HTTP 500): one update and one cleanup DELETE follow the first create. -/
def c4_run : List LoadTestResult :=
  scenario_create_update "run" 2 (fun _ => "") (fun _ => "")
    (fun i => if i = 0 then .ok ⟨201, "created-u0", 3⟩ else .ok ⟨500, "server error", 3⟩)
    (fun _ => .ok ⟨200, "", 2⟩) (fun _ => .ok ⟨204, "", 2⟩)
    (fun s => if s = "created-u0" then some "u0" else none)

/-- Claim C4, counterexample: with N = 2 and one failed create, the
`create_update` scenario records 4 results with request indices
`{0, 1, 2, 4}` — the cleanup DELETE is indexed from the scenario's base
total `2N = 4`, so index 3 is missing and the set is not `{0, 1, 2, 3}`. -/
theorem C4_counterexample :
    c4_run.map (·.request_index) = [0, 1, 2, 4] ∧
    c4_run.length = 4 ∧ (3 : ℤ) ∉ c4_run.map (·.request_index) := by decide

theorem C4_witness :
    (scenario_create_update "run" 1 (fun _ => "") (fun _ => "")
        (fun _ => .ok ⟨201, "created-u0", 3⟩) (fun _ => .ok ⟨200, "", 2⟩)
        (fun _ => .ok ⟨204, "", 2⟩)
        (fun s => if s = "created-u0" then some "u0" else none)).map (·.request_index)
      = (List.range (3 * 1)).map (fun i : ℕ => (i : ℤ)) :=
  C4_create_update_indices_dense "run" 1 (fun _ => "") (fun _ => "")
    (fun _ => .ok ⟨201, "created-u0", 3⟩) (fun _ => .ok ⟨200, "", 2⟩)
    (fun _ => .ok ⟨204, "", 2⟩)
    (fun s => if s = "created-u0" then some "u0" else none) (by decide)

end LoadTestEngine
end SCIMInspector

/-! ## Proof development: per-request success criteria and cancel tokens -/

namespace SCIMInspector
namespace LoadTestEngine

theorem build_result_http_method (run_id : String) (index : ℕ) (method path : String)
    (body : Option String) (result : Except String ScimResponse) :
    (build_result run_id index method path body result).http_method = method := by
  cases result <;> rfl

theorem users_url_not_groups (s : String) :
    starts_with ("/Users/" ++ s) "/Groups/" = false := rfl

theorem cleanup_record_not_groups (rid s : String) (k : ℕ)
    (del : Except String ScimResponse) :
    ((cleanup_delete_result rid ("/Users/" ++ s) k del).http_method == "DELETE"
      && starts_with (cleanup_delete_result rid ("/Users/" ++ s) k del).url "/Groups/")
      = false := by
  show (("DELETE" == "DELETE") && starts_with ("/Users/" ++ s) "/Groups/") = false
  rw [users_url_not_groups, Bool.and_false]

/-- Claim C5, as amended: (a) `build_result` produces one result per
attempt, successful exactly for `200 ≤ status < 400`, and records
transport failures as `success = false` with the error message; (b) the
cleanup DELETE records built inside `cleanup_users`/`cleanup_resources`
use the narrower band `200 ≤ status < 300` (transport failures likewise
carry their message); (c) not every HTTP attempt yields a result: the
group cleanup DELETE of `scenario_add_remove_members` is issued but its
response is discarded — the scenario's output is independent of that
response and contains no DELETE record on the group's URL (every recorded
DELETE targets `/Users/…`). -/
theorem C5_success_criteria (run_id m p path : String) (idx kdx : ℕ)
    (b : Option String) (resp : ScimResponse) (e : String)
    (n : ℕ) (gb : String) (ub : ℕ → String) (ab rb : String → String)
    (gcr : Except String ScimResponse) (ucr ar rr udr : ℕ → Except String ScimResponse)
    (gd gd' : Except String ScimResponse) (pid : String → Option String) :
    ((build_result run_id idx m p b (.ok resp)).success
        = decide (200 ≤ resp.status ∧ resp.status < 400)) ∧
    ((build_result run_id idx m p b (.error e)).success = false ∧
      (build_result run_id idx m p b (.error e)).error_message = some e) ∧
    ((cleanup_delete_result run_id path kdx (.ok resp)).success
        = decide (200 ≤ resp.status ∧ resp.status < 300)) ∧
    ((cleanup_delete_result run_id path kdx (.error e)).success = false ∧
      (cleanup_delete_result run_id path kdx (.error e)).error_message = some e) ∧
    (scenario_add_remove_members run_id n gb ub ab rb gcr ucr ar rr gd udr pid
      = scenario_add_remove_members run_id n gb ub ab rb gcr ucr ar rr gd' udr pid) ∧
    ((scenario_add_remove_members run_id n gb ub ab rb gcr ucr ar rr gd udr pid).filter
        (fun r => r.http_method == "DELETE" && starts_with r.url "/Groups/") = []) := by
  refine ⟨rfl, ⟨rfl, rfl⟩, rfl, ⟨rfl, rfl⟩, rfl, ?_⟩
  have hbuild : ∀ (mth : String), (mth == "DELETE") = false →
      ∀ (rid : String) (i : ℕ) (pth : String) (bd : Option String)
        (res : Except String ScimResponse),
        ((build_result rid i mth pth bd res).http_method == "DELETE"
          && starts_with (build_result rid i mth pth bd res).url "/Groups/") = false := by
    intro mth hm rid i pth bd res
    rw [build_result_http_method, hm, Bool.false_and]
  rw [List.filter_eq_nil_iff]
  intro r hr
  rw [Bool.not_eq_true]
  simp only [scenario_add_remove_members] at hr
  cases hg : created_id pid gcr <;> simp only [hg] at hr
  case none =>
      rcases List.mem_singleton.mp hr with rfl
      exact hbuild "POST" (by decide) _ _ _ _ _
  case some gid =>
      rcases List.mem_cons.mp hr with rfl | hr2
      · exact hbuild "POST" (by decide) _ _ _ _ _
      rcases List.mem_append.mp hr2 with hx | hclean
      · rcases List.mem_append.mp hx with hy | hrem
        · rcases List.mem_append.mp hy with hc | hadd
          · rcases List.mem_map.mp hc with ⟨i, _, rfl⟩
            exact hbuild "POST" (by decide) _ _ _ _ _
          · rcases List.mem_map.mp hadd with ⟨j, _, rfl⟩
            exact hbuild "PATCH" (by decide) _ _ _ _ _
        · rcases List.mem_map.mp hrem with ⟨j, _, rfl⟩
          exact hbuild "PATCH" (by decide) _ _ _ _ _
      · simp only [cleanup_users] at hclean
        by_cases he : (((List.range n).filterMap fun i => created_id pid (ucr i)).isEmpty)
        · rw [if_pos he] at hclean
          cases hclean
        · rw [if_neg he] at hclean
          rcases List.mem_map.mp hclean with ⟨i, _, rfl⟩
          exact cleanup_record_not_groups _ _ _ _

/-- Claim C5, counterexample: (a) a cleanup DELETE answered with HTTP 302
has `success = false` although `200 ≤ 302 < 400` — the claimed uniform
success band does not cover the cleanup records; (b) an
`add_remove_members` run with N = 1 and every request succeeding issues
six HTTP attempts (group POST, user POST, PATCH add, PATCH remove, group
DELETE, user DELETE) but records only five results — the single DELETE
record is the user cleanup, and no record exists for the group DELETE —
so "every HTTP attempt produces exactly one LoadTestResult" fails too. -/
theorem C5_counterexample :
    (¬ (((cleanup_delete_result "run" "/Users/u0" 20 (.ok ⟨302, "", 1⟩)).success = true)
        ↔ (200 ≤ 302 ∧ (302 : ℕ) < 400))) ∧
    ((scenario_add_remove_members "run" 1 "" (fun _ => "") (fun _ => "") (fun _ => "")
        (.ok ⟨201, "created-g0", 2⟩)
        (fun _ => .ok ⟨201, "created-u0", 2⟩) (fun _ => .ok ⟨200, "", 2⟩)
        (fun _ => .ok ⟨200, "", 2⟩) (.ok ⟨204, "", 2⟩) (fun _ => .ok ⟨204, "", 2⟩)
        (fun s => if s = "created-g0" then some "g0"
                  else if s = "created-u0" then some "u0" else none)).length = 5 ∧
      ((scenario_add_remove_members "run" 1 "" (fun _ => "") (fun _ => "") (fun _ => "")
        (.ok ⟨201, "created-g0", 2⟩)
        (fun _ => .ok ⟨201, "created-u0", 2⟩) (fun _ => .ok ⟨200, "", 2⟩)
        (fun _ => .ok ⟨200, "", 2⟩) (.ok ⟨204, "", 2⟩) (fun _ => .ok ⟨204, "", 2⟩)
        (fun s => if s = "created-g0" then some "g0"
                  else if s = "created-u0" then some "u0" else none)).filter
          (fun r => r.http_method == "DELETE")).map (·.url) = ["/Users/u0"]) := by
  constructor
  · decide
  · decide

end LoadTestEngine

/-- Claim C6: `commands.rs::run_validation` never creates or registers a
cancel token (the `cancel_flags` map is untouched on its path), while
`start_load_test` registers exactly one before invoking the engine and
removes it afterwards; `stop_load_test` on a registered id finds and sets
the flag. -/
theorem C6_run_validation_missing_cancel_token :
    FacadeStep.register_cancel_token ∉ run_validation_steps ∧
    FacadeStep.invoke_engine ∈ run_validation_steps ∧
    ((start_load_test_steps false).count FacadeStep.register_cancel_token = 1 ∧
      (start_load_test_steps false).head? = some FacadeStep.register_cancel_token ∧
      (start_load_test_steps false).getLast? = some FacadeStep.remove_cancel_token) ∧
    ((start_load_test_steps true).count FacadeStep.register_cancel_token = 1 ∧
      (start_load_test_steps true).head? = some FacadeStep.register_cancel_token ∧
      (start_load_test_steps true).getLast? = some FacadeStep.remove_cancel_token) ∧
    (stop_load_test [("run-1", false)] "run-1").1.isOk = true ∧
    (stop_load_test [("run-1", false)] "run-1").2 = [("run-1", true)] ∧
    (stop_load_test [] "run-1").1.isOk = false := by decide

end SCIMInspector

/-! ## Proof development: load-test summary invariants -/

namespace SCIMInspector
namespace LoadTestEngine

theorem sorted_getD_mono (L : List ℤ) (hs : L.Sorted (· ≤ ·)) {i j : ℕ}
    (hij : i ≤ j) (hj : j < L.length) : L.getD i 0 ≤ L.getD j 0 := by
  have hi : i < L.length := lt_of_le_of_lt hij hj
  rw [List.getD_eq_getElem L 0 hi, List.getD_eq_getElem L 0 hj]
  exact hs.rel_get_of_le (a := ⟨i, hi⟩) (b := ⟨j, hj⟩) hij

theorem f64Round_mono_of_nonneg {x y : ℚ} (hx : 0 ≤ x) (hxy : x ≤ y) :
    f64Round x ≤ f64Round y := by
  rw [f64Round, f64Round, if_pos hx, if_pos (hx.trans hxy)]
  exact Int.floor_le_floor (by linarith)

theorem percentile_idx_le (L : List ℤ) (k : ℤ) (h : 0 < L.length) :
    min k.toNat (L.length - 1) < L.length :=
  lt_of_le_of_lt (min_le_right _ _) (by omega)

theorem percentile_mono (L : List ℤ) (hs : L.Sorted (· ≤ ·)) {p q : ℚ}
    (hp : 0 ≤ p) (hpq : p ≤ q) : percentile L p ≤ percentile L q := by
  rw [percentile, percentile]
  by_cases hL : L.isEmpty
  · simp [hL]
  · rw [if_neg hL, if_neg hL]
    have hlen : 0 < L.length := by
      cases L with
      | nil => simp at hL
      | cons a t => simp
    have harg : p / 100 * ((L.length - 1 : ℕ) : ℚ) ≤ q / 100 * ((L.length - 1 : ℕ) : ℚ) := by
      apply mul_le_mul_of_nonneg_right _ (by positivity)
      linarith
    have hargp : (0:ℚ) ≤ p / 100 * ((L.length - 1 : ℕ) : ℚ) := by positivity
    have hidx : (f64Round (p / 100 * ((L.length - 1 : ℕ) : ℚ))).toNat
        ≤ (f64Round (q / 100 * ((L.length - 1 : ℕ) : ℚ))).toNat :=
      Int.toNat_le_toNat (f64Round_mono_of_nonneg hargp harg)
    exact sorted_getD_mono L hs (min_le_min hidx le_rfl)
      (percentile_idx_le L _ hlen)

theorem head_getD_le_percentile (L : List ℤ) (hs : L.Sorted (· ≤ ·)) (p : ℚ)
    (hL : ¬ L.isEmpty = true) : (L.head?).getD 0 ≤ percentile L p := by
  have hlen : 0 < L.length := by
    cases L with
    | nil => simp at hL
    | cons a t => simp
  have hhead : (L.head?).getD 0 = L.getD 0 0 := by
    cases L with
    | nil => rfl
    | cons a t => rfl
  rw [hhead, percentile, if_neg hL]
  exact sorted_getD_mono L hs (Nat.zero_le _) (percentile_idx_le L _ hlen)

theorem percentile_le_getLast_getD (L : List ℤ) (hs : L.Sorted (· ≤ ·)) (p : ℚ)
    (hL : ¬ L.isEmpty = true) : percentile L p ≤ (L.getLast?).getD 0 := by
  have hlen : 0 < L.length := by
    cases L with
    | nil => simp at hL
    | cons a t => simp
  have hlast : (L.getLast?).getD 0 = L.getD (L.length - 1) 0 := by
    rw [List.getLast?_eq_getElem?, List.getD_eq_getElem?_getD]
  rw [hlast, percentile, if_neg hL]
  exact sorted_getD_mono L hs (min_le_right _ _) (by omega)

/-- Claim C7: for every result list and duration, the summary satisfies
`total_requests = successful + failed`, `0 ≤ error_rate ≤ 100`, and the
latency statistics are monotone:
`min ≤ p50 ≤ p75 ≤ p90 ≤ p95 ≤ p99 ≤ max`. -/
theorem C7_summary_invariants (results : List LoadTestResult) (d : ℤ) :
    (compute_summary results d).total_requests
      = (compute_summary results d).successful + (compute_summary results d).failed ∧
    0 ≤ (compute_summary results d).error_rate ∧
    (compute_summary results d).error_rate ≤ 100 ∧
    (compute_summary results d).min_latency_ms ≤ (compute_summary results d).p50_latency_ms ∧
    (compute_summary results d).p50_latency_ms ≤ (compute_summary results d).p75_latency_ms ∧
    (compute_summary results d).p75_latency_ms ≤ (compute_summary results d).p90_latency_ms ∧
    (compute_summary results d).p90_latency_ms ≤ (compute_summary results d).p95_latency_ms ∧
    (compute_summary results d).p95_latency_ms ≤ (compute_summary results d).p99_latency_ms ∧
    (compute_summary results d).p99_latency_ms ≤ (compute_summary results d).max_latency_ms := by
  have hfle : (results.filter (·.success)).length ≤ results.length :=
    List.length_filter_le _ _
  have hs : (List.insertionSort (· ≤ ·) (results.map (·.duration_ms))).Sorted (· ≤ ·) :=
    List.sorted_insertionSort _ _
  set L : List ℤ := List.insertionSort (· ≤ ·) (results.map (·.duration_ms)) with hLdef
  refine ⟨?_, ?_, ?_, ?_, ?_, ?_, ?_, ?_, ?_⟩
  · simp only [compute_summary]
    omega
  · simp only [compute_summary]
    split
    · positivity
    · norm_num
  · simp only [compute_summary]
    split
    case isTrue hpos =>
      set f := results.length - (results.filter (·.success)).length with hf
      have hcast : (f : ℚ) ≤ (results.length : ℚ) := by
        exact_mod_cast Nat.sub_le _ _
      have hqpos : (0:ℚ) < (results.length : ℚ) := by exact_mod_cast hpos
      have h1 : (f : ℚ) / (results.length : ℚ) ≤ 1 := (div_le_one hqpos).mpr hcast
      calc (f : ℚ) / (results.length : ℚ) * 100 ≤ 1 * 100 :=
            mul_le_mul_of_nonneg_right h1 (by norm_num)
        _ = 100 := by norm_num
    case isFalse => norm_num
  · by_cases hL : L.isEmpty
    · simp only [compute_summary]
      rw [← hLdef]
      cases hLnil : L with
      | nil => simp [percentile]
      | cons a t => rw [hLnil] at hL; simp at hL
    · simp only [compute_summary]
      rw [← hLdef]
      exact head_getD_le_percentile L hs 50 hL
  · simp only [compute_summary]
    rw [← hLdef]
    exact percentile_mono L hs (by norm_num) (by norm_num)
  · simp only [compute_summary]
    rw [← hLdef]
    exact percentile_mono L hs (by norm_num) (by norm_num)
  · simp only [compute_summary]
    rw [← hLdef]
    exact percentile_mono L hs (by norm_num) (by norm_num)
  · simp only [compute_summary]
    rw [← hLdef]
    exact percentile_mono L hs (by norm_num) (by norm_num)
  · by_cases hL : L.isEmpty
    · simp only [compute_summary]
      rw [← hLdef]
      cases hLnil : L with
      | nil => simp [percentile]
      | cons a t => rw [hLnil] at hL; simp at hL
    · simp only [compute_summary]
      rw [← hLdef]
      exact percentile_le_getLast_getD L hs 99 hL

end LoadTestEngine
end SCIMInspector

/-! ## Proof development: SCIM client URL joining, headers, authentication -/

namespace SCIMInspector

theorem head_dropWhile_slash (l : List Char) :
    (l.dropWhile (· == '/')).head? ≠ some '/' := by
  induction l with
  | nil => simp
  | cons a t ih =>
      by_cases ha : a == '/'
      · simpa [List.dropWhile_cons, ha] using ih
      · simp only [List.dropWhile_cons, ha, if_false, Bool.false_eq_true]
        intro hcontra
        rw [List.head?_cons, Option.some_inj] at hcontra
        subst hcontra
        simp at ha

theorem trim_start_slashes_no_leading (s : String) :
    (trim_start_slashes s).data.head? ≠ some '/' :=
  head_dropWhile_slash s.data

theorem trim_end_slashes_no_trailing (s : String) :
    (trim_end_slashes s).data.getLast? ≠ some '/' := by
  show ((s.data.reverse.dropWhile (· == '/')).reverse).getLast? ≠ some '/'
  rw [List.getLast?_reverse]
  exact head_dropWhile_slash s.data.reverse

theorem mem_apply_auth (c : ScimClient) (b64 : String → String)
    (hs : List (String × String)) (x : String × String) (hx : x ∈ hs) :
    x ∈ c.apply_auth b64 hs := by
  rw [ScimClient.apply_auth]
  split_ifs
  · cases c.auth_token <;> simp [hx]
  · cases c.auth_username <;> cases c.auth_password <;> simp [hx]
  · cases c.api_key_header <;> cases c.api_key_value <;> simp [hx]
  · exact hx

/-- Claim C8: the client stores the base URL with every trailing slash
stripped; each request URL is `base_url ++ "/" ++ path-without-leading-
slashes`, so the two parts meet at exactly one slash; and every request
carries `Content-Type` and `Accept` set to `application/scim+json`. -/
theorem C8_url_join_and_headers (config : ServerConfig) (m path : String)
    (b64 : String → String) (body : Option String) :
    (ScimClient.new config).base_url = trim_end_slashes config.base_url ∧
    (ScimClient.new config).base_url.data.getLast? ≠ some '/' ∧
    (ScimClient.new config).build_url path
      = (ScimClient.new config).base_url ++ "/" ++ trim_start_slashes path ∧
    (trim_start_slashes path).data.head? ≠ some '/' ∧
    ("Content-Type", "application/scim+json")
      ∈ ((ScimClient.new config).build_request b64 m path body).headers ∧
    ("Accept", "application/scim+json")
      ∈ ((ScimClient.new config).build_request b64 m path body).headers := by
  refine ⟨rfl, trim_end_slashes_no_trailing _, rfl, trim_start_slashes_no_leading _, ?_, ?_⟩
  · exact mem_apply_auth _ _ _ _ (by simp)
  · exact mem_apply_auth _ _ _ _ (by simp)

/-- The three configurations in which `apply_auth` finds no usable
credential material: a bearer kind without a token, a basic kind missing
the username or the password, an api-key kind missing the header name or
value. -/
def credential_missing (c : ScimClient) : Prop :=
  (c.auth_type = "bearer" ∧ c.auth_token = none) ∨
  (c.auth_type = "basic" ∧ (c.auth_username = none ∨ c.auth_password = none)) ∨
  (c.auth_type = "apikey" ∧ (c.api_key_header = none ∨ c.api_key_value = none))

/-- Claim C10: when the configured auth kind's credential material is
absent, `apply_auth` leaves the header list untouched and the request is
still assembled (with only the two content-negotiation headers), rather
than failing. -/
theorem C10_missing_credentials_no_auth_header (c : ScimClient)
    (b64 : String → String) (hs : List (String × String)) (m p : String)
    (body : Option String) (h : credential_missing c) :
    c.apply_auth b64 hs = hs ∧
    (c.build_request b64 m p body).headers
      = [("Content-Type", "application/scim+json"),
         ("Accept", "application/scim+json")] := by
  have happ : ∀ l : List (String × String), c.apply_auth b64 l = l := by
    intro l
    rcases h with ⟨ht, htok⟩ | ⟨ht, hun⟩ | ⟨ht, hk⟩
    · rw [ScimClient.apply_auth, if_pos ht, htok]
    · rw [ScimClient.apply_auth, if_neg (by rw [ht]; decide), if_pos ht]
      rcases hun with h1 | h1
      · rw [h1]
      · rw [h1]; cases c.auth_username <;> rfl
    · rw [ScimClient.apply_auth, if_neg (by rw [ht]; decide),
        if_neg (by rw [ht]; decide), if_pos ht]
      rcases hk with h1 | h1
      · rw [h1]
      · rw [h1]; cases c.api_key_header <;> rfl
  exact ⟨happ hs, happ _⟩

/-- A bearer-kind client whose token is absent. -/
def tokenless_client : ScimClient :=
  { base_url := "https://scim.example.com/v2"
    auth_type := "bearer"
    auth_token := none
    auth_username := none
    auth_password := none
    api_key_header := none
    api_key_value := none }

theorem C10_witness :
    tokenless_client.apply_auth (fun s => s) [("X-Probe", "y")] = [("X-Probe", "y")] ∧
    (tokenless_client.build_request (fun s => s) "GET" "/Users" none).headers
      = [("Content-Type", "application/scim+json"),
         ("Accept", "application/scim+json")] :=
  C10_missing_credentials_no_auth_header tokenless_client (fun s => s)
    [("X-Probe", "y")] "GET" "/Users" none (Or.inl ⟨rfl, rfl⟩)

end SCIMInspector

/-! ## Proof development: field-mapping rule validation -/

namespace SCIMInspector
namespace ValidationEngine

/-- The format strings `validate_field_rule` dispatches on; anything else
falls through to the pass-all wildcard arm. -/
def recognized_formats : List String :=
  ["none", "email", "uri", "phone", "boolean", "integer", "datetime", "regex"]

theorem format_check_unknown (rx : RegexOracle) (rule : FieldMappingRule)
    (val : Json) (hfmt : rule.format ∉ recognized_formats) :
    format_check rx rule val = (true, none) := by
  simp only [recognized_formats, List.mem_cons, List.not_mem_nil, or_false, not_or] at hfmt
  obtain ⟨h1, h2, h3, h4, h5, h6, h7, h8⟩ := hfmt
  rw [format_check.eq_def]
  rw [if_neg h1, if_neg h2, if_neg h3, if_neg h4, if_neg h5, if_neg h6, if_neg h7,
    if_neg h8]

/-- Claim C9, as amended: (a) a non-required rule whose attribute path
resolves — without panicking — to a missing or null value passes, whatever
its format; (b) a rule with an unrecognized format string passes whenever
the path resolves without panicking and the required check does not
already fail (in particular whenever `required = false` and the path
resolves); and (c) "always passes" is too strong twice over: a *required*
unknown-format rule still fails on a missing/null/empty value (see the
counterexample), and a rule whose attribute path contains a segment whose
first `'['` is its final character (here `"emails["`) makes `split_path`'s
slicing panic, so the probe crashes and produces no result at all. -/
theorem C9_optional_missing_and_unknown_format (rx : RegexOracle) (user : Json)
    (rule : FieldMappingRule) :
    (rule.required = false →
      ∀ vopt : Option Json, resolve_path user rule.scim_attribute = some vopt →
        vopt.all (·.isNull) = true →
        validate_field_rule rx user rule = some (true, none)) ∧
    (rule.format ∉ recognized_formats →
      ∀ vopt : Option Json, resolve_path user rule.scim_attribute = some vopt →
        required_check rule vopt = none →
        validate_field_rule rx user rule = some (true, none)) ∧
    validate_field_rule rx (Json.obj [])
      { scim_attribute := "emails[", required := false, format := "custom" } = none := by
  refine ⟨?_, ?_, ?_⟩
  · intro hreq vopt hres hval
    have h1 : required_check rule vopt = none := by
      rw [required_check.eq_def, if_neg (by simp [hreq])]
    simp only [validate_field_rule.eq_def, hres, h1]
    cases vopt with
    | none => rfl
    | some v =>
        simp only [Option.all] at hval
        simp [hval]
  · intro hfmt vopt hres hreqc
    simp only [validate_field_rule.eq_def, hres, hreqc]
    cases vopt with
    | none => rfl
    | some v =>
        by_cases hnull : v.isNull
        · simp [hnull]
        · simp only [hnull, Bool.false_eq_true, if_false]
          rw [format_check_unknown rx rule v hfmt]
  · rfl

/-- A regex oracle that rejects everything — which branch is taken never
depends on it in the claims settled here. -/
def c9_rx : RegexOracle :=
  { email_match := fun _ => false
    phone_match := fun _ => false
    datetime_match := fun _ => false
    compile := fun _ => none }

/-- A required rule with an unrecognized format string. -/
def c9_required_custom_rule : FieldMappingRule :=
  { scim_attribute := "externalId", required := true, format := "custom" }

/-- Claim C9, counterexample: a rule with the unrecognized format
`"custom"` but `required = true` fails (does not pass) against a user JSON
in which the attribute is missing — the required check runs before the
format dispatch. -/
theorem C9_counterexample :
    (validate_field_rule c9_rx (Json.obj []) c9_required_custom_rule).map Prod.fst
      = some false := by decide

theorem C9_witness :
    validate_field_rule c9_rx (Json.obj [])
      { scim_attribute := "externalId", required := false, format := "email" }
        = some (true, none) ∧
    validate_field_rule c9_rx (Json.obj [("externalId", Json.str "dn-42")])
      { scim_attribute := "externalId", required := false, format := "custom" }
        = some (true, none) :=
  ⟨(C9_optional_missing_and_unknown_format c9_rx (Json.obj [])
      { scim_attribute := "externalId", required := false, format := "email" }).1
      rfl none rfl rfl,
   (C9_optional_missing_and_unknown_format c9_rx
      (Json.obj [("externalId", Json.str "dn-42")])
      { scim_attribute := "externalId", required := false, format := "custom" }).2.1
      (by decide) (some (Json.str "dn-42")) rfl (by decide)⟩

end ValidationEngine
end SCIMInspector
